import Mathlib

/-!
Shallow embedding of the ibctest Polkadot chain orchestrator
(chain/polkadot/polkadot_chain.go) and the Cosmos relayer job driver
(rly package), together with theorems checking the specification claims.

Each definition is a direct translation of the corresponding Go function;
external effects (docker calls, file reads and writes) are made explicit as
parameters or as events of a trace.
-/

namespace IbcTest

/-! ## Genesis composer (modifyGenesis)

In the source each relay-chain node supplies five address strings through
fallible accessors on RelayChainNode (MultiAddress, StashAddress,
AccountAddress, GrandpaAddress, EcdsaAddress); those accessors live outside
this repository slice, so one node is abstracted by the five strings the
accessors return on the success path of modifyGenesis. -/

structure RelayNodeAddrs where
  multiAddress : String
  stashAddress : String
  accountAddress : String
  grandpaAddress : String
  beefyAddress : String
  deriving DecidableEq, Repr

/-- Mirror of the Go struct PolkadotAuthority (the JSON object stored as the
third component of each session.keys tuple). -/
structure PolkadotAuthority where
  grandpa : String
  babe : String
  imOnline : String
  parachainValidator : String
  authorityDiscovery : String
  paraValidator : String
  paraAssignment : String
  beefy : String
  deriving DecidableEq, Repr

/-- The per-node authority tuple built in the loop body of modifyGenesis:
(stashAddress, stashAddress, PolkadotAuthority{...}). -/
def authorityOf (n : RelayNodeAddrs) : String × String × PolkadotAuthority :=
  (n.stashAddress, n.stashAddress,
    { grandpa := n.grandpaAddress
      babe := n.accountAddress
      imOnline := n.accountAddress
      parachainValidator := n.accountAddress
      authorityDiscovery := n.accountAddress
      paraValidator := n.accountAddress
      paraAssignment := n.accountAddress
      beefy := n.beefyAddress })

/-- The bootNodes list built by modifyGenesis: one multiaddress per node. -/
def bootNodesOf (nodes : List RelayNodeAddrs) : List String :=
  nodes.map (·.multiAddress)

/-- The balances list built by modifyGenesis: per node, in node order, a stash
entry then an account entry, each funded with 1000000000000000000 units. -/
def balancesOf (nodes : List RelayNodeAddrs) : List (String × Nat) :=
  nodes.flatMap fun n =>
    [(n.stashAddress, 1000000000000000000), (n.accountAddress, 1000000000000000000)]

/-- The session.keys authority list built by modifyGenesis: one tuple per
relay-chain node. -/
def authoritiesOf (nodes : List RelayNodeAddrs) : List (String × String × PolkadotAuthority) :=
  nodes.map authorityOf

/-- The sudo key written by modifyGenesis: sudoAddress is assigned the account
address of the node at loop index 0 and is the zero value "" when the node
list is empty. -/
def sudoAddressOf (nodes : List RelayNodeAddrs) : String :=
  match nodes with
  | [] => ""
  | n :: _ => n.accountAddress

lemma authoritiesOf_map_fst (nodes : List RelayNodeAddrs) :
    (authoritiesOf nodes).map Prod.fst = nodes.map (·.stashAddress) := by
  simp [authoritiesOf, authorityOf]

lemma length_filter_authoritiesOf (nodes : List RelayNodeAddrs) (s : String) :
    ((authoritiesOf nodes).filter (fun a => a.1 = s)).length =
      (nodes.map (·.stashAddress)).count s := by
  induction nodes with
  | nil => simp [authoritiesOf]
  | cons n rest ih =>
    by_cases h : n.stashAddress = s
    · simp [authoritiesOf, authorityOf, h, List.filter, List.count_cons] at ih ⊢
      omega
    · simp [authoritiesOf, authorityOf, h, List.filter, List.count_cons] at ih ⊢
      exact ih

/-- C2: the session.keys authority list has length equal to the relay-chain
node count, and, when the stash addresses of the nodes handed to composition
are pairwise distinct (as they are for nodes produced by Initialize, whose
key material is derived from distinct names), every stash address appearing
in the balances list occurs as the first element of exactly one authority
tuple. -/
theorem authority_completeness (nodes : List RelayNodeAddrs)
    (hnd : (nodes.map (·.stashAddress)).Nodup) :
    (authoritiesOf nodes).length = nodes.length ∧
    ∀ n ∈ nodes,
      (n.stashAddress, 1000000000000000000) ∈ balancesOf nodes ∧
      ((authoritiesOf nodes).filter (fun a => a.1 = n.stashAddress)).length = 1 := by
  refine ⟨by simp [authoritiesOf], fun n hn => ⟨?_, ?_⟩⟩
  · simp only [balancesOf, List.mem_flatMap]
    exact ⟨n, hn, by simp⟩
  · rw [length_filter_authoritiesOf]
    have hmem : n.stashAddress ∈ nodes.map (·.stashAddress) :=
      List.mem_map.mpr ⟨n, hn, rfl⟩
    have h1 : 0 < (nodes.map (·.stashAddress)).count n.stashAddress :=
      List.count_pos_iff.mpr hmem
    have h2 : (nodes.map (·.stashAddress)).count n.stashAddress ≤ 1 :=
      List.nodup_iff_count_le_one.mp hnd n.stashAddress
    omega

/-- Witness for C2 at a concrete two-node list with distinct stash
addresses. -/
theorem authority_completeness_witness :
    (authoritiesOf [⟨"m1", "S1", "A1", "g1", "b1"⟩, ⟨"m2", "S2", "A2", "g2", "b2"⟩]).length = 2 ∧
    ∀ n ∈ [RelayNodeAddrs.mk "m1" "S1" "A1" "g1" "b1", ⟨"m2", "S2", "A2", "g2", "b2"⟩],
      (n.stashAddress, 1000000000000000000) ∈
        balancesOf [⟨"m1", "S1", "A1", "g1", "b1"⟩, ⟨"m2", "S2", "A2", "g2", "b2"⟩] ∧
      ((authoritiesOf [⟨"m1", "S1", "A1", "g1", "b1"⟩, ⟨"m2", "S2", "A2", "g2", "b2"⟩]).filter
        (fun a => a.1 = n.stashAddress)).length = 1 :=
  authority_completeness
    [⟨"m1", "S1", "A1", "g1", "b1"⟩, ⟨"m2", "S2", "A2", "g2", "b2"⟩] (by decide)

/-- C3: composing genesis for exactly two relay-chain nodes with stash
addresses S1, S2 and account addresses A1, A2 sets the sudo key to A1 (the
first node's account address) and produces exactly the four balances entries
(S1,1e18),(A1,1e18),(S2,1e18),(A2,1e18) in that interleaved per-node
order. -/
theorem modifyGenesis_two_nodes (S1 S2 A1 A2 m1 m2 g1 g2 b1 b2 : String) :
    sudoAddressOf [⟨m1, S1, A1, g1, b1⟩, ⟨m2, S2, A2, g2, b2⟩] = A1 ∧
    balancesOf [⟨m1, S1, A1, g1, b1⟩, ⟨m2, S2, A2, g2, b2⟩] =
      [(S1, 1000000000000000000), (A1, 1000000000000000000),
       (S2, 1000000000000000000), (A2, 1000000000000000000)] ∧
    (balancesOf [⟨m1, S1, A1, g1, b1⟩, ⟨m2, S2, A2, g2, b2⟩]).length = 4 :=
  ⟨rfl, rfl, rfl⟩

/-! ## Initialize: identity name table and key-derivation loop

Mirrors Initialize (polkadot_chain.go lines 90-234).  The docker effects
(image pulls, volume creation) are made explicit; the per-node loop indexes
the fixed IndexedName table and derives the node's key material. -/

/-- The fixed substrate dev key-name table, IndexedName. -/
def IndexedName : List String := ["alice", "bob", "charlie", "dave", "ferdie"]

/-- Ways the Initialize identity loop can abort.  In Go an out-of-range index
into IndexedName is a runtime panic, not a returned error value; the two
failure modes are therefore distinct constructors. -/
inductive InitError where
  | indexOutOfRangePanic (i : Nat)
  | derivationFailure (msg : String)
  deriving DecidableEq, Repr

/-- Modelled from the spec: DeriveEd25519FromName, DeriveSr25519FromName and
DeriveSecp256k1FromName are not part of this repository slice.  Spec §4.1
says the three consensus key families are derived deterministically from the
case-normalized name (the stash key additionally incorporating a fixed
"stash" suffix to its derivation input), failing only if an underlying
derivation fails, which for the fixed valid names of the table it does not.
Key material is represented by its derivation input. -/
def deriveNodeKeys (nameCased : String) : Except String (String × String × String × String) :=
  .ok (nameCased, nameCased, nameCased ++ "stash", nameCased)

/-- The per-node identity loop of Initialize: for i in [0, count), index the
name table (a Go panic when out of range), case-normalize the name, derive
the node's keys, and stop at the first failure. -/
def initLoop : Nat → Nat → Except InitError (List (String × String × String × String))
  | _, 0 => .ok []
  | i, Nat.succ k =>
    match IndexedName[i]? with
    | none => .error (.indexOutOfRangePanic i)
    | some nm =>
      match deriveNodeKeys nm.capitalize with
      | .error e => .error (.derivationFailure e)
      | .ok keys =>
        match initLoop (i + 1) k with
        | .error e => .error e
        | .ok rest => .ok (keys :: rest)

/-- Identity derivation for a configured relay-chain node count, starting at
index 0 as Initialize does. -/
def initializeIdentities (numRelayChainNodes : Nat) :
    Except InitError (List (String × String × String × String)) :=
  initLoop 0 numRelayChainNodes

/-- Whether an Initialize outcome is a returned derivation error. -/
def isDerivationFailure (r : Except InitError (List (String × String × String × String))) :
    Bool :=
  match r with
  | .error (.derivationFailure _) => true
  | _ => false

/-- C4 counterexample: at the concrete count 6 the identity loop aborts with
an index-out-of-range panic at index 5; it does not fail with a returned
derivation error as the claim states. -/
theorem initialize_six_nodes_cex :
    initializeIdentities 6 = .error (.indexOutOfRangePanic 5) ∧
    isDerivationFailure (initializeIdentities 6) = false :=
  ⟨rfl, rfl⟩

/-- C4 (amended): for every configured relay-chain node count greater than 5,
Initialize aborts by an index-out-of-range panic at index 5 when indexing the
exhausted identity-name table — it neither wraps around nor reuses a name,
but the failure is a panic, not a returned DerivationError. -/
theorem initialize_table_exhaustion (n : Nat) (h : 5 < n) :
    initializeIdentities n = .error (.indexOutOfRangePanic 5) := by
  obtain ⟨m, rfl⟩ : ∃ m, n = m + 6 := ⟨n - 6, by omega⟩
  rfl

/-- Witness for C4 at the concrete count 7. -/
theorem initialize_table_exhaustion_witness :
    initializeIdentities 7 = .error (.indexOutOfRangePanic 5) :=
  initialize_table_exhaustion 7 (by decide)

/-- Outcome of Initialize: image-pull errors are logged and otherwise
discarded (Initialize lines 98-114: a failed `ImagePull` is logged and the
loop continues; a successful pull stream is drained and closed), after which
the identity loop alone determines the returned value. -/
structure InitOutcome where
  loggedPullErrors : List String
  outcome : Except InitError (List (String × String × String × String))
  deriving Repr

/-- Initialize, with the result of each image pull supplied explicitly
(`none` = success, `some e` = pull failure with error e). -/
def initializeModel (pullResults : List (Option String)) (n : Nat) : InitOutcome :=
  { loggedPullErrors := pullResults.filterMap id
    outcome := initLoop 0 n }

/-! ## CreateKey / GetAddress (polkadot_chain.go lines 548-565) -/

/-- Hex value of one character, as hex.DecodeString interprets it. -/
def hexDigitVal (c : Char) : Option Nat :=
  if '0' ≤ c ∧ c ≤ '9' then some (c.toNat - '0'.toNat)
  else if 'a' ≤ c ∧ c ≤ 'f' then some (c.toNat - 'a'.toNat + 10)
  else if 'A' ≤ c ∧ c ≤ 'F' then some (c.toNat - 'A'.toNat + 10)
  else none

/-- Pairwise hex decoding of a character list (hex.DecodeString fails on an
odd-length input or a non-hex character). -/
def hexDecodeChars : List Char → Option (List Nat)
  | [] => some []
  | [_] => none
  | c1 :: c2 :: rest =>
    match hexDigitVal c1, hexDigitVal c2, hexDecodeChars rest with
    | some h, some l, some bs => some ((16 * h + l) :: bs)
    | _, _, _ => none

/-- The hex.DecodeString of the Go standard library, over strings. -/
def hexDecode (s : String) : Option (List Nat) := hexDecodeChars s.toList

/-- The hard-coded hex string decoded by CreateKey. -/
def alicePublicKeyHex : String :=
  "020a1091341fe5664bfa1782d5e04779689068c916b04cb365ec3153755684d9a1"

/-- The portion of PolkadotChain state touched by CreateKey/GetAddress: the
publicKey byte slice. -/
structure ChainKeyState where
  publicKey : List Nat
  deriving DecidableEq, Repr

/-- CreateKey: decodes the hard-coded hex string into c.publicKey and returns
the decode error; the keyName argument is never consulted. -/
def createKey (st : ChainKeyState) (keyName : String) : ChainKeyState × Option String :=
  match st, keyName, hexDecode alicePublicKeyHex with
  | _, _, some bytes => ({ publicKey := bytes }, none)
  | _, _, none => ({ publicKey := [] }, some "hex decode error")

/-- GetAddress: returns c.publicKey; the keyName argument is never
consulted. -/
def getAddress (st : ChainKeyState) (keyName : String) : List Nat :=
  match keyName with
  | _ => st.publicKey

/-- C10: CreateKey stores the same fixed hard-coded 33-byte public key
whatever the key name and prior state, and a subsequent GetAddress returns
exactly those bytes regardless of its own key-name argument. -/
theorem createKey_getAddress_fixed (st st2 : ChainKeyState) (n1 n2 n3 : String) :
    createKey st n1 = createKey st2 n2 ∧
    (createKey st n1).1.publicKey =
      [0x02, 0x0a, 0x10, 0x91, 0x34, 0x1f, 0xe5, 0x66, 0x4b, 0xfa, 0x17, 0x82,
       0xd5, 0xe0, 0x47, 0x79, 0x68, 0x90, 0x68, 0xc9, 0x16, 0xb0, 0x4c, 0xb3,
       0x65, 0xec, 0x31, 0x53, 0x75, 0x56, 0x84, 0xd9, 0xa1] ∧
    (createKey st n1).1.publicKey.length = 33 ∧
    (createKey st n1).2 = none ∧
    getAddress (createKey st n1).1 n3 = (createKey st n1).1.publicKey :=
  ⟨rfl, rfl, rfl, rfl, rfl⟩

/-! ## Relayer one-shot job driver (rly CosmosRelayer.NodeJob)

Mirrors NodeJob (rly package, lines 258-315).  The docker client's responses
are supplied explicitly (`none` = success), so the function is a pure
transcription of the control flow. -/

/-- Responses of the docker client during one NodeJob run. -/
structure DockerBehavior where
  pullResult : Option String
  createResult : Option String
  startResult : Option String
  waitExit : Nat
  waitErr : Option String
  logsStdout : String
  logsStderr : String
  deriving DecidableEq, Repr

/-- Observable outcome of one NodeJob run: the returned quadruple plus
whether the job container was created, and whether it was removed. -/
structure NodeJobOutcome where
  exitCode : Nat
  stdout : String
  stderr : String
  jobErr : Option String
  containerCreated : Bool
  containerRemoved : Bool
  deriving DecidableEq, Repr

/-- NodeJob: a pull error returns (1,"","",err) immediately; a create error
returns with no container created; a start error returns with the created
container left in place (no RemoveContainer on that path); otherwise the
container is waited on, its logs collected, and the container removed before
the wait result is returned (removal happens whether or not the wait
errored). -/
def nodeJob (beh : DockerBehavior) : NodeJobOutcome :=
  match beh.pullResult with
  | some e => ⟨1, "", "", some e, false, false⟩
  | none =>
    match beh.createResult with
    | some e => ⟨1, "", "", some e, false, false⟩
    | none =>
      match beh.startResult with
      | some e => ⟨1, "", "", some e, true, false⟩
      | none =>
        ⟨beh.waitExit, beh.logsStdout, beh.logsStderr, beh.waitErr, true, true⟩

/-- A run in which StartContainer fails after the job container was
created. -/
def behStartFails : DockerBehavior :=
  { pullResult := none, createResult := none, startResult := some "start failed",
    waitExit := 0, waitErr := none, logsStdout := "", logsStderr := "" }

/-- A run in which the container is started and waited on but the wait
returns an error. -/
def behWaitErrors : DockerBehavior :=
  { pullResult := none, createResult := none, startResult := none,
    waitExit := 137, waitErr := some "context cancelled", logsStdout := "out",
    logsStderr := "err" }

/-- A run in which the image pull fails. -/
def behPullFails : DockerBehavior :=
  { pullResult := some "pull failed", createResult := none, startResult := none,
    waitExit := 0, waitErr := none, logsStdout := "", logsStderr := "" }

/-- C7 counterexample: when StartContainer fails, NodeJob returns the error
with the created job container left in place — the container is not removed,
contradicting the claim that the container is removed after every job
outcome. -/
theorem nodeJob_leak_cex :
    (nodeJob behStartFails).containerCreated = true ∧
    (nodeJob behStartFails).containerRemoved = false ∧
    (nodeJob behStartFails).jobErr = some "start failed" :=
  ⟨rfl, rfl, rfl⟩

/-- C7 (amended): whenever the job container was created, it is removed if
and only if StartContainer succeeded; in particular removal happens on
non-zero exit codes and on wait errors, but a start failure leaks the
created container. -/
theorem nodeJob_cleanup (beh : DockerBehavior)
    (h : (nodeJob beh).containerCreated = true) :
    (nodeJob beh).containerRemoved = true ↔ beh.startResult = none := by
  obtain ⟨p, c, s, w, we, lo, le⟩ := beh
  cases p <;> cases c <;> cases s <;> simp_all [nodeJob]

/-- Witness for C7's amended theorem at a concrete run whose wait errors:
the container was created and is removed exactly because the start
succeeded. -/
theorem nodeJob_cleanup_witness :
    (nodeJob behWaitErrors).containerCreated = true ∧
    ((nodeJob behWaitErrors).containerRemoved = true ↔
      behWaitErrors.startResult = none) :=
  ⟨rfl, nodeJob_cleanup behWaitErrors rfl⟩

/-- C8 counterexample: in the relayer job driver a failed image pull is
returned as the job error (no container is even created), not logged and
ignored as the claim states for every component. -/
theorem pull_failure_cex :
    (nodeJob behPullFails).jobErr = some "pull failed" ∧
    (nodeJob behPullFails).containerCreated = false :=
  ⟨rfl, rfl⟩

/-- C8 (amended): the chain's Initialize logs and ignores image-pull
failures — its outcome is the identity loop's outcome whatever the pull
results — but the relayer job driver treats a pull failure as fatal for the
job: NodeJob returns the pull error and creates no container. -/
theorem pull_failure_handling (pullResults : List (Option String)) (n : Nat)
    (beh : DockerBehavior) (e : String) (h : beh.pullResult = some e) :
    (initializeModel pullResults n).outcome = initializeIdentities n ∧
    (nodeJob beh).jobErr = some e ∧
    (nodeJob beh).containerCreated = false := by
  obtain ⟨p, c, s, w, we, lo, le⟩ := beh
  simp only at h
  subst h
  exact ⟨rfl, rfl, rfl⟩

/-- Witness for C8's amended theorem at a concrete pull failure. -/
theorem pull_failure_handling_witness :
    (initializeModel [some "pull failed"] 2).outcome = initializeIdentities 2 ∧
    (nodeJob behPullFails).jobErr = some "pull failed" ∧
    (nodeJob behPullFails).containerCreated = false :=
  pull_failure_handling [some "pull failed"] 2 behPullFails "pull failed" rfl

/-! ## The fail-fast join in Start (errgroup)

Start launches one goroutine per node with eg.Go and joins with eg.Wait.  A
plain errgroup.Group (no WithContext) is used, so a failing task does not
cancel its siblings: Wait blocks until every launched task has finished and
returns the first non-nil error.  The join is modelled as a function of the
complete list of task outcomes in completion order — the model consumes one
outcome per task, i.e. every task runs to completion. -/

/-- errgroup.Wait over the task outcomes in completion order: the first
non-nil error, or nil when every task succeeded. -/
def egWait : List (Option String) → Option String
  | [] => none
  | none :: rest => egWait rest
  | some e :: _ => some e

/-- The two eg.Wait joins in Start: the relay-chain phase is joined first and
an error returns immediately (the parachain tasks are then never issued);
otherwise the parachain phase is joined. -/
def startJoin (relayResults paraResults : List (Option String)) : Option String :=
  match egWait relayResults with
  | some e => some e
  | none => egWait paraResults

lemma egWait_append (xs ys : List (Option String)) :
    egWait (xs ++ ys) =
      match egWait xs with
      | some e => some e
      | none => egWait ys := by
  induction xs with
  | nil => simp [egWait]
  | cons x rest ih => cases x <;> simp [egWait, ih]

lemma egWait_isSome_of_mem (rs : List (Option String))
    (h : ∃ r ∈ rs, r.isSome = true) : (egWait rs).isSome = true := by
  induction rs with
  | nil => simp at h
  | cons x rest ih =>
    cases x with
    | some e => simp [egWait]
    | none =>
      simp only [egWait]
      apply ih
      obtain ⟨r, hr, hs⟩ := h
      rcases List.mem_cons.mp hr with h1 | h1
      · subst h1; simp at hs
      · exact ⟨r, h1, hs⟩

/-- C5: if any one of the issued container create/start tasks fails, Start's
join returns a non-nil error — the first error in completion order — so the
network is not reported Running; the join is a function of the complete
outcome list, every task having run to completion (a plain errgroup does not
cancel siblings). -/
theorem start_fail_fast (relayResults paraResults : List (Option String))
    (h : ∃ r ∈ relayResults ++ paraResults, r.isSome = true) :
    (startJoin relayResults paraResults).isSome = true ∧
    startJoin relayResults paraResults = egWait (relayResults ++ paraResults) := by
  constructor
  · have := egWait_isSome_of_mem _ h
    rw [egWait_append] at this
    unfold startJoin
    cases hw : egWait relayResults <;> simp_all
  · rw [egWait_append]
    unfold startJoin
    cases egWait relayResults <;> simp

/-- Witness for C5 at concrete outcomes: two relay tasks, the second of which
fails, and no parachain tasks. -/
theorem start_fail_fast_witness :
    (startJoin [none, some "boom"] []).isSome = true ∧
    startJoin [none, some "boom"] [] = egWait ([none, some "boom"] ++ []) :=
  start_fail_fast [none, some "boom"] [] ⟨some "boom", by simp, rfl⟩

/-! ## GetChannels output parsing (rly CosmosRelayer.GetChannels) -/

/-- The per-line loop of GetChannels: skip lines that trim to empty, attempt
to decode each remaining line, log-and-skip decode failures, append successes
in order.  The json.Unmarshal of the standard library is supplied as the
decode parameter. -/
def channelLoop {α : Type} (decode : String → Option α) :
    List α → List String → List α
  | acc, [] => acc
  | acc, line :: rest =>
    if line.trim = "" then channelLoop decode acc rest
    else
      match decode line with
      | none => channelLoop decode acc rest
      | some c => channelLoop decode (acc ++ [c]) rest

/-- The channel list GetChannels builds from the job's stdout: the stdout is
split on newline and fed through the per-line loop. -/
def parseChannels {α : Type} (decode : String → Option α) (stdout : String) :
    List α :=
  channelLoop decode [] (stdout.splitOn "\n")

/-- Modelled from the spec: dockerutil.HandleNodeJobError is outside this
repository slice.  Spec §4.5/§7 say a non-zero exit code or transport error
from a one-shot job is wrapped into a single descriptive error including the
captured stdout/stderr; otherwise the call succeeds. -/
def handleNodeJobError (exitCode : Nat) (stdout stderr : String)
    (err : Option String) : Option String :=
  match err with
  | some e => some (e ++ stdout ++ stderr)
  | none =>
    if exitCode ≠ 0 then some ("non-zero exit: " ++ stdout ++ stderr) else none

/-- GetChannels: run the query job; a job error returns the empty list with
the wrapped error; otherwise the parsed records are returned together with
the wrapped job outcome (which does not depend on any parse failure). -/
def getChannels {α : Type} (decode : String → Option α) (job : NodeJobOutcome) :
    List α × Option String :=
  match job.jobErr with
  | some e => ([], handleNodeJobError job.exitCode job.stdout job.stderr (some e))
  | none => (parseChannels decode job.stdout,
             handleNodeJobError job.exitCode job.stdout job.stderr none)

lemma channelLoop_eq {α : Type} (decode : String → Option α) (ls : List String)
    (acc : List α) :
    channelLoop decode acc ls =
      acc ++ (ls.filter (fun l => !(l.trim == ""))).filterMap decode := by
  induction ls generalizing acc with
  | nil => simp [channelLoop]
  | cons line rest ih =>
    by_cases h : line.trim = ""
    · simp [channelLoop, h, ih]
    · cases hd : decode line <;> simp [channelLoop, h, hd, ih]

/-- C9: on a successful query job, each stdout line that does not trim to
empty is decoded as one channel record, a line that fails to decode is
skipped without failing the call, the returned list is exactly the
successfully decoded records in line order, and all-whitespace stdout yields
the empty list. -/
theorem getChannels_parsing {α : Type} (decode : String → Option α)
    (job : NodeJobOutcome) (hjob : job.jobErr = none) (hexit : job.exitCode = 0) :
    (getChannels decode job).1 =
      ((job.stdout.splitOn "\n").filter (fun l => !(l.trim == ""))).filterMap decode ∧
    (getChannels decode job).2 = none ∧
    ((∀ l ∈ job.stdout.splitOn "\n", l.trim = "") →
      (getChannels decode job).1 = []) := by
  obtain ⟨ec, so, se, je, cc, cr⟩ := job
  simp only at hjob hexit
  subst hjob hexit
  refine ⟨?_, ?_, ?_⟩
  · simp [getChannels, parseChannels, channelLoop_eq, handleNodeJobError]
  · simp [getChannels, handleNodeJobError]
  · intro hall
    simp only [getChannels, parseChannels, channelLoop_eq, List.nil_append]
    have : (so.splitOn "\n").filter (fun l => !(l.trim == "")) = [] := by
      apply List.filter_eq_nil_iff.mpr
      intro l hl
      simp [hall l hl]
    simp [this]

/-- Concrete query-job outcome: exit 0, one good line, one malformed line,
one blank line. -/
def jobOkSample : NodeJobOutcome :=
  ⟨0, "good\n\nnot-json\n", "", none, true, true⟩

/-- Concrete decoder standing in for json.Unmarshal: accepts only the line
"good". -/
def decodeSample : String → Option Nat :=
  fun l => if l = "good" then some 1 else none

/-- Witness for C9 at a concrete job outcome and decoder. -/
theorem getChannels_parsing_witness :
    (getChannels decodeSample jobOkSample).1 =
      ((jobOkSample.stdout.splitOn "\n").filter
        (fun l => !(l.trim == ""))).filterMap decodeSample ∧
    (getChannels decodeSample jobOkSample).2 = none ∧
    ((∀ l ∈ jobOkSample.stdout.splitOn "\n", l.trim = "") →
      (getChannels decodeSample jobOkSample).1 = []) :=
  getChannels_parsing decodeSample jobOkSample rfl rfl

/-! ## Start: event-trace model (polkadot_chain.go lines 359-449)

Start is modelled by the traces its control flow admits: a strictly
sequential setup prefix (chain-spec generation on the first node, read-back,
genesis composition, write-back of the edited spec, raw conversion, one
read-back of the raw bytes), then the relay-chain node tasks run
concurrently — any interleaving — joined by eg.Wait, then the parachain node
tasks run concurrently, joined again.  Each task's own events stay in
program order inside an interleaving. -/

/-- A node of the network: relay-chain node i, or node i of parachain group
g. -/
inductive NodeId where
  | relay (i : Nat)
  | para (g : Nat) (i : Nat)
  deriving DecidableEq, Repr

/-- The externally visible steps of Start. -/
inductive StartEvent where
  | generateChainSpec
  | readChainSpec
  | composeGenesis
  | writeEditedChainSpec
  | generateRawChainSpec
  | readRawChainSpec
  | writeRawGenesis (n : NodeId) (bytes : List Nat)
  | createContainer (n : NodeId)
  | startContainer (n : NodeId)
  deriving DecidableEq, Repr

/-- The strictly sequential setup prefix of every successful Start run. -/
def startSetupEvents : List StartEvent :=
  [.generateChainSpec, .readChainSpec, .composeGenesis, .writeEditedChainSpec,
   .generateRawChainSpec, .readRawChainSpec]

/-- The goroutine body for relay-chain node i: every node but the first
writes the raw chain spec to its volume, then creates and starts its
container. -/
def relayTask (raw : List Nat) (i : Nat) : List StartEvent :=
  (if i = 0 then [] else [.writeRawGenesis (.relay i) raw]) ++
    [.createContainer (.relay i), .startContainer (.relay i)]

/-- The goroutine body for node i of parachain group g: write the raw chain
spec, create, start. -/
def paraTask (raw : List Nat) (g i : Nat) : List StartEvent :=
  [.writeRawGenesis (.para g i) raw, .createContainer (.para g i),
   .startContainer (.para g i)]

/-- The relay-chain goroutines launched in the first loop of Start. -/
def relayTasks (raw : List Nat) (numRelay : Nat) : List (List StartEvent) :=
  (List.range numRelay).map (relayTask raw)

/-- The parachain goroutines launched in the second loop of Start, one per
node of each group. -/
def paraTasks (raw : List Nat) (paraSizes : List Nat) : List (List StartEvent) :=
  (List.range paraSizes.length).flatMap fun g =>
    (List.range (paraSizes.getD g 0)).map (paraTask raw g)

/-- body is an interleaving of the given task event lists: each body event
can be assigned to the task it came from, such that the events assigned to
task k, in body order, are exactly task k's events in program order. -/
def IsInterleaving {α : Type} (tasks : List (List α)) (body : List α) : Prop :=
  ∃ tagged : List (Nat × α),
    tagged.map Prod.snd = body ∧
    (∀ p ∈ tagged, p.1 < tasks.length) ∧
    ∀ k (hk : k < tasks.length),
      (tagged.filter (fun p => p.1 == k)).map Prod.snd = tasks.get ⟨k, hk⟩

/-- The traces of a successful Start run: setup prefix, then an interleaving
of the relay-chain tasks, then (after the first join) an interleaving of the
parachain tasks; raw is the buffer read back once from the first node. -/
def StartTrace (numRelay : Nat) (paraSizes : List Nat) (raw : List Nat)
    (tr : List StartEvent) : Prop :=
  ∃ relayBody paraBody,
    tr = startSetupEvents ++ relayBody ++ paraBody ∧
    IsInterleaving (relayTasks raw numRelay) relayBody ∧
    IsInterleaving (paraTasks raw paraSizes) paraBody

lemma IsInterleaving.sublist_of_mem {α : Type} {tasks : List (List α)}
    {body : List α} (h : IsInterleaving tasks body) {t : List α}
    (ht : t ∈ tasks) : t.Sublist body := by
  obtain ⟨tagged, hmap, _, hfil⟩ := h
  obtain ⟨k, hk⟩ := List.mem_iff_get.mp ht
  rw [← hk, ← hfil k.1 k.2, ← hmap]
  exact (List.filter_sublist tagged).map Prod.snd

lemma IsInterleaving.mem_task {α : Type} {tasks : List (List α)}
    {body : List α} (h : IsInterleaving tasks body) {e : α} (he : e ∈ body) :
    ∃ t ∈ tasks, e ∈ t := by
  obtain ⟨tagged, hmap, hbound, hfil⟩ := h
  rw [← hmap] at he
  obtain ⟨p, hp, rfl⟩ := List.mem_map.mp he
  have hlt := hbound p hp
  refine ⟨tasks.get ⟨p.1, hlt⟩, List.get_mem _ _ _, ?_⟩
  rw [← hfil p.1 hlt]
  exact List.mem_map.mpr ⟨p, List.mem_filter.mpr ⟨hp, by simp⟩, rfl⟩

lemma sublist_pair_index {α : Type} {a b : α} {l : List α}
    (h : [a, b].Sublist l) :
    ∃ i j : Fin l.length, i < j ∧ l.get i = a ∧ l.get j = b := by
  rw [List.sublist_iff_exists_fin_orderEmbedding_get_eq] at h
  obtain ⟨f, hf⟩ := h
  refine ⟨f ⟨0, by norm_num⟩, f ⟨1, by norm_num⟩, ?_, ?_, ?_⟩
  · exact f.lt_iff_lt.mpr (show (⟨0, by norm_num⟩ : Fin 2) < ⟨1, by norm_num⟩ by
      simp [Fin.lt_def])
  · exact (hf ⟨0, by norm_num⟩).symm
  · exact (hf ⟨1, by norm_num⟩).symm

lemma mem_relayTask_write {raw bytes : List Nat} {i : Nat} {n : NodeId}
    (h : StartEvent.writeRawGenesis n bytes ∈ relayTask raw i) : bytes = raw := by
  unfold relayTask at h
  by_cases hi : i = 0 <;> simp [hi] at h
  exact h.2

lemma mem_paraTask_write {raw bytes : List Nat} {g i : Nat} {n : NodeId}
    (h : StartEvent.writeRawGenesis n bytes ∈ paraTask raw g i) : bytes = raw := by
  simp [paraTask] at h
  exact h.2

lemma mem_relayTasks_elim {raw : List Nat} {numRelay : Nat} {t : List StartEvent}
    (ht : t ∈ relayTasks raw numRelay) : ∃ i, i < numRelay ∧ t = relayTask raw i := by
  simp only [relayTasks, List.mem_map, List.mem_range] at ht
  obtain ⟨i, hi, rfl⟩ := ht
  exact ⟨i, hi, rfl⟩

lemma mem_paraTasks_elim {raw : List Nat} {paraSizes : List Nat}
    {t : List StartEvent} (ht : t ∈ paraTasks raw paraSizes) :
    ∃ g i, t = paraTask raw g i := by
  simp only [paraTasks, List.mem_flatMap, List.mem_map, List.mem_range] at ht
  obtain ⟨g, _, i, _, rfl⟩ := ht
  exact ⟨g, i, rfl⟩

lemma relayTask_mem {raw : List Nat} {numRelay i : Nat} (hi : i < numRelay) :
    relayTask raw i ∈ relayTasks raw numRelay :=
  List.mem_map.mpr ⟨i, List.mem_range.mpr hi, rfl⟩

lemma paraTask_mem {raw : List Nat} {paraSizes : List Nat} {g i : Nat}
    (hg : g < paraSizes.length) (hi : i < paraSizes.getD g 0) :
    paraTask raw g i ∈ paraTasks raw paraSizes :=
  List.mem_flatMap.mpr ⟨g, List.mem_range.mpr hg,
    List.mem_map.mpr ⟨i, List.mem_range.mpr hi, rfl⟩⟩

lemma readRaw_not_mem_relayBody {raw : List Nat} {numRelay : Nat}
    {body : List StartEvent} (h : IsInterleaving (relayTasks raw numRelay) body) :
    StartEvent.readRawChainSpec ∉ body := by
  intro hmem
  obtain ⟨t, ht, he⟩ := h.mem_task hmem
  obtain ⟨i, _, rfl⟩ := mem_relayTasks_elim ht
  unfold relayTask at he
  by_cases hi : i = 0 <;> simp [hi] at he

lemma readRaw_not_mem_paraBody {raw : List Nat} {paraSizes : List Nat}
    {body : List StartEvent} (h : IsInterleaving (paraTasks raw paraSizes) body) :
    StartEvent.readRawChainSpec ∉ body := by
  intro hmem
  obtain ⟨t, ht, he⟩ := h.mem_task hmem
  obtain ⟨g, i, rfl⟩ := mem_paraTasks_elim ht
  simp [paraTask] at he

lemma relayTask_eq_of_ne {raw : List Nat} {i : Nat} (hne : i ≠ 0) :
    relayTask raw i =
      [.writeRawGenesis (.relay i) raw, .createContainer (.relay i),
       .startContainer (.relay i)] := by
  unfold relayTask
  simp [hne]

/-- C1: along every trace of Start, the raw genesis buffer is read back
exactly once (from the first relay-chain node, after raw conversion), every
raw-genesis write event in the trace carries that same buffer byte for byte,
and every non-first relay node and every parachain node receives the write
before its container is created. -/
theorem genesis_consistency (numRelay : Nat) (paraSizes : List Nat)
    (raw : List Nat) (tr : List StartEvent)
    (h : StartTrace numRelay paraSizes raw tr) :
    (∀ n bytes, StartEvent.writeRawGenesis n bytes ∈ tr → bytes = raw) ∧
    tr.count .readRawChainSpec = 1 ∧
    (∀ i, i < numRelay → i ≠ 0 →
      ∃ a b : Fin tr.length, a < b ∧
        tr.get a = .writeRawGenesis (.relay i) raw ∧
        tr.get b = .createContainer (.relay i)) ∧
    (∀ g i, g < paraSizes.length → i < paraSizes.getD g 0 →
      ∃ a b : Fin tr.length, a < b ∧
        tr.get a = .writeRawGenesis (.para g i) raw ∧
        tr.get b = .createContainer (.para g i)) := by
  obtain ⟨relayBody, paraBody, rfl, hR, hP⟩ := h
  refine ⟨?_, ?_, ?_, ?_⟩
  · intro n bytes hmem
    rcases List.mem_append.mp hmem with h01 | h2
    · rcases List.mem_append.mp h01 with h0 | h1
      · simp [startSetupEvents] at h0
      · obtain ⟨t, ht, he⟩ := hR.mem_task h1
        obtain ⟨i, _, rfl⟩ := mem_relayTasks_elim ht
        exact mem_relayTask_write he
    · obtain ⟨t, ht, he⟩ := hP.mem_task h2
      obtain ⟨g, i, rfl⟩ := mem_paraTasks_elim ht
      exact mem_paraTask_write he
  · rw [List.count_append, List.count_append]
    have h0 : startSetupEvents.count StartEvent.readRawChainSpec = 1 := by decide
    have h1 : relayBody.count StartEvent.readRawChainSpec = 0 :=
      List.count_eq_zero.mpr (readRaw_not_mem_relayBody hR)
    have h2 : paraBody.count StartEvent.readRawChainSpec = 0 :=
      List.count_eq_zero.mpr (readRaw_not_mem_paraBody hP)
    omega
  · intro i hi hne
    have hpair : [StartEvent.writeRawGenesis (.relay i) raw,
        StartEvent.createContainer (.relay i)].Sublist (relayTask raw i) := by
      rw [relayTask_eq_of_ne hne]
      exact ((List.nil_sublist _).cons _).cons₂ _ |>.cons₂ _
    have h1 : (relayTask raw i).Sublist relayBody :=
      hR.sublist_of_mem (relayTask_mem hi)
    have h2 : relayBody.Sublist (startSetupEvents ++ relayBody) :=
      List.sublist_append_right _ _
    have h3 : (startSetupEvents ++ relayBody).Sublist
        (startSetupEvents ++ relayBody ++ paraBody) :=
      List.sublist_append_left _ _
    exact sublist_pair_index (((hpair.trans h1).trans h2).trans h3)
  · intro g i hg hi
    have hpair : [StartEvent.writeRawGenesis (.para g i) raw,
        StartEvent.createContainer (.para g i)].Sublist (paraTask raw g i) := by
      unfold paraTask
      exact ((List.nil_sublist _).cons _).cons₂ _ |>.cons₂ _
    have h1 : (paraTask raw g i).Sublist paraBody :=
      hP.sublist_of_mem (paraTask_mem hg hi)
    have h2 : paraBody.Sublist (startSetupEvents ++ relayBody ++ paraBody) :=
      List.sublist_append_right _ _
    exact sublist_pair_index ((hpair.trans h1).trans h2)

/-- Whether an event is a container create or start. -/
def isContainerEvent : StartEvent → Bool
  | .createContainer _ => true
  | .startContainer _ => true
  | _ => false

/-- C6: along every trace of Start, the six-step setup pipeline (spec
generation, read-back, composition, write-back, raw conversion, raw
read-back) is the sequential prefix of the trace, every container create or
start lies strictly after it, and for every node whose volume must receive
the raw bytes the write occurs before that node's container start. -/
theorem start_ordering (numRelay : Nat) (paraSizes : List Nat)
    (raw : List Nat) (tr : List StartEvent)
    (h : StartTrace numRelay paraSizes raw tr) :
    tr.take 6 = startSetupEvents ∧
    (∀ j : Fin tr.length, isContainerEvent (tr.get j) = true → 5 < (j : Nat)) ∧
    (∀ i, i < numRelay → i ≠ 0 →
      ∃ a b : Fin tr.length, a < b ∧
        tr.get a = .writeRawGenesis (.relay i) raw ∧
        tr.get b = .startContainer (.relay i)) ∧
    (∀ g i, g < paraSizes.length → i < paraSizes.getD g 0 →
      ∃ a b : Fin tr.length, a < b ∧
        tr.get a = .writeRawGenesis (.para g i) raw ∧
        tr.get b = .startContainer (.para g i)) := by
  obtain ⟨relayBody, paraBody, rfl, hR, hP⟩ := h
  refine ⟨?_, ?_, ?_, ?_⟩
  · have h0 := List.take_left startSetupEvents (relayBody ++ paraBody)
    rw [List.append_assoc]
    exact h0
  · rintro ⟨jv, hjlt⟩ hj
    by_contra hle
    push_neg at hle
    have hle2 : jv ≤ 5 := hle
    have h12 : jv < (startSetupEvents ++ relayBody).length := by
      rw [List.length_append]
      have : startSetupEvents.length = 6 := rfl
      omega
    have h6 : jv < startSetupEvents.length := by
      have : startSetupEvents.length = 6 := rfl
      omega
    rw [List.get_eq_getElem] at hj
    rw [List.getElem_append_left h12, List.getElem_append_left h6] at hj
    have hall : ∀ e ∈ startSetupEvents, isContainerEvent e = false := by decide
    have hfalse := hall _ (List.getElem_mem h6)
    rw [hfalse] at hj
    cases hj
  · intro i hi hne
    have hpair : [StartEvent.writeRawGenesis (.relay i) raw,
        StartEvent.startContainer (.relay i)].Sublist (relayTask raw i) := by
      rw [relayTask_eq_of_ne hne]
      exact (((List.Sublist.refl _).cons _).cons₂ _)
    have h1 : (relayTask raw i).Sublist relayBody :=
      hR.sublist_of_mem (relayTask_mem hi)
    have h2 : relayBody.Sublist (startSetupEvents ++ relayBody) :=
      List.sublist_append_right _ _
    have h3 : (startSetupEvents ++ relayBody).Sublist
        (startSetupEvents ++ relayBody ++ paraBody) :=
      List.sublist_append_left _ _
    exact sublist_pair_index (((hpair.trans h1).trans h2).trans h3)
  · intro g i hg hi
    have hpair : [StartEvent.writeRawGenesis (.para g i) raw,
        StartEvent.startContainer (.para g i)].Sublist (paraTask raw g i) := by
      unfold paraTask
      exact (((List.Sublist.refl _).cons _).cons₂ _)
    have h1 : (paraTask raw g i).Sublist paraBody :=
      hP.sublist_of_mem (paraTask_mem hg hi)
    have h2 : paraBody.Sublist (startSetupEvents ++ relayBody ++ paraBody) :=
      List.sublist_append_right _ _
    exact sublist_pair_index ((hpair.trans h1).trans h2)

/-- A sample raw genesis buffer. -/
def sampleRaw : List Nat := [7, 13]

/-- A concrete relay-phase body: the two relay tasks run back to back. -/
def sampleRelayBody : List StartEvent :=
  [.createContainer (.relay 0), .startContainer (.relay 0),
   .writeRawGenesis (.relay 1) sampleRaw, .createContainer (.relay 1),
   .startContainer (.relay 1)]

/-- A concrete parachain-phase body: the single parachain node's task. -/
def sampleParaBody : List StartEvent :=
  [.writeRawGenesis (.para 0 0) sampleRaw, .createContainer (.para 0 0),
   .startContainer (.para 0 0)]

/-- A concrete Start trace for 2 relay nodes and one single-node parachain
group. -/
def sampleTrace : List StartEvent :=
  startSetupEvents ++ sampleRelayBody ++ sampleParaBody

lemma sampleTrace_is_startTrace : StartTrace 2 [1] sampleRaw sampleTrace := by
  refine ⟨sampleRelayBody, sampleParaBody, rfl, ?_, ?_⟩
  · exact ⟨[(0, .createContainer (.relay 0)), (0, .startContainer (.relay 0)),
      (1, .writeRawGenesis (.relay 1) sampleRaw), (1, .createContainer (.relay 1)),
      (1, .startContainer (.relay 1))], by decide, by decide, by decide⟩
  · exact ⟨[(0, .writeRawGenesis (.para 0 0) sampleRaw),
      (0, .createContainer (.para 0 0)), (0, .startContainer (.para 0 0))],
      by decide, by decide, by decide⟩

/-- Witness for C1 at the concrete sample trace. -/
theorem genesis_consistency_witness :
    StartTrace 2 [1] sampleRaw sampleTrace ∧
    sampleTrace.count StartEvent.readRawChainSpec = 1 :=
  ⟨sampleTrace_is_startTrace,
   (genesis_consistency 2 [1] sampleRaw sampleTrace sampleTrace_is_startTrace).2.1⟩

/-- Witness for C6 at the concrete sample trace. -/
theorem start_ordering_witness :
    StartTrace 2 [1] sampleRaw sampleTrace ∧
    sampleTrace.take 6 = startSetupEvents :=
  ⟨sampleTrace_is_startTrace,
   (start_ordering 2 [1] sampleRaw sampleTrace sampleTrace_is_startTrace).1⟩

end IbcTest
